import Mathlib

/-
Verification of the portfolio management engine (backend/portfolio.py)
against its natural-language specification.

Shallow embedding conventions:
- Python floats are modelled by exact rationals (ℚ).  Quantities whose exact
  value involves a square root (pandas `std`, `np.sqrt(252)`) are passed as
  parameters constrained by the equation they satisfy (v ≥ 0 ∧ v² = ...),
  since ℚ cannot represent them and ℝ arithmetic is not executable.
- Python dicts (keyed by ticker or date) are modelled as association lists,
  looked up with `assocFind`;  `dict.get(k, 0)` becomes
  `(assocFind l k).getD 0`.  pandas `.loc[date]` on a date-indexed series is
  also an association lookup.
- Exceptions (`raise ValueError`) are modelled with `Except EngineError`.
  The spec's taxonomy names the two fatal `ValueError`s `DataError` and
  `ConfigError`; we keep the Python messages.
- pandas date indices are modelled as lists of `Date` values; `strftime`
  date strings are injective on distinct dates, so snapshots are keyed by
  `Date` directly.
-/

namespace Portfolio

/-- Calendar date, standing for a pandas `Timestamp` (only the fields the
engine reads: `.year`, `.month`, and the day for identity). -/
structure Date where
  y : Nat
  m : Nat
  d : Nat
deriving DecidableEq, Repr

/-- Association-list lookup, the model of Python `dict[k]` / `dict.get` and of
pandas label indexing (first matching row). -/
def assocFind {α β : Type} [DecidableEq α] (l : List (α × β)) (k : α) : Option β :=
  match l with
  | [] => none
  | p :: rest => if p.1 = k then some p.2 else assocFind rest k

/-- One asset's OHLCV history, reduced to the columns the engine reads:
the date index and the `Close` column. -/
abbrev Frame := List (Date × ℚ)

/-- `asset_data`: dict mapping ticker → DataFrame (insertion-ordered). -/
abbrev AssetData := List (String × Frame)

/-- The two fatal error kinds of the spec taxonomy (both `ValueError` in the
source; distinguished by message as the spec's §7 does). -/
inductive EngineError where
  | dataError (msg : String)
  | configError (msg : String)
deriving DecidableEq, Repr

instance {ε α : Type} [DecidableEq ε] [DecidableEq α] : DecidableEq (Except ε α)
  | .error a, .error b =>
    if h : a = b then .isTrue (by rw [h]) else .isFalse (fun hc => by cases hc; exact h rfl)
  | .error _, .ok _ => .isFalse (fun hc => Except.noConfusion hc)
  | .ok _, .error _ => .isFalse (fun hc => Except.noConfusion hc)
  | .ok a, .ok b =>
    if h : a = b then .isTrue (by rw [h]) else .isFalse (fun hc => by cases hc; exact h rfl)

/-- Arithmetic mean of a list, pandas `Series.mean()` (NaN on empty input is
modelled as 0/0 = 0). -/
def meanQ (xs : List ℚ) : ℚ := xs.sum / (xs.length : ℚ)

/-- Sample variance with `ddof=1` (the square of pandas `Series.std()`).
pandas yields NaN for fewer than two observations; that case is modelled as 0,
which makes the associated volatility constraint force `vol = 0`, matching the
`NaN > 0 = False` branch the source then takes. -/
def sampleVarQ (xs : List ℚ) : ℚ :=
  if xs.length ≤ 1 then 0
  else (xs.map (fun x => (x - meanQ xs) ^ 2)).sum / ((xs.length - 1 : Nat) : ℚ)

/-- `Series.pct_change().fillna(0)`: first entry 0, then successive ratios
minus one (portfolio.py line 321 and, for the values path, line 382). -/
def pctChangeAux (prev : ℚ) : List ℚ → List ℚ
  | [] => []
  | x :: rest => (x / prev - 1) :: pctChangeAux x rest

/-- See `pctChangeAux`. -/
def pctChangeFill0 : List ℚ → List ℚ
  | [] => []
  | c :: rest => 0 :: pctChangeAux c rest

/-- `Series.shift(1).fillna(0)`: lag by one position, 0 in front
(portfolio.py lines 257 and 323). -/
def shiftFill0 (xs : List ℚ) : List ℚ :=
  match xs with
  | [] => []
  | _ :: _ => 0 :: xs.dropLast

/-- `returns * signals.shift(1).fillna(0)` where a missing signal series
defaults to an all-ones series over the same index
(`asset_signals.get(ticker, pd.Series([1] * len(returns), ...))`,
portfolio.py lines 254-257 and 322-323). -/
def gateSignals (rs : List ℚ) (sig : Option (List ℚ)) : List ℚ :=
  List.zipWith (· * ·) rs (shiftFill0 (sig.getD (List.replicate rs.length 1)))

/-- Per-asset strategy-gated return series with its date index
(portfolio.py lines 320-323). -/
def gatedReturns (f : Frame) (sig : Option (List ℚ)) : List (Date × ℚ) :=
  (f.map (·.1)).zip (gateSignals (pctChangeFill0 (f.map (·.2))) sig)

/-- Intersection of all date indices (portfolio.py lines 64-70 and 305-309):
the first frame's index filtered to dates present in every other frame.
For strictly increasing inputs this equals pandas' sorted intersection. -/
def commonIndex (ad : AssetData) : List Date :=
  match ad with
  | [] => []
  | (_, f) :: rest =>
      (f.map (·.1)).filter
        (fun d => rest.all (fun e => decide (d ∈ e.2.map (·.1))))

/-- `_align_data` (portfolio.py lines 59-79).  The Python method mutates
`self.asset_data` — which is the very dict the caller passed in — re-slicing
each ticker's frame to the common index via `.loc[common_index]`;  here the
post-state of that dict is returned explicitly. -/
def alignData (tickers : List String) (ad : AssetData) : Except EngineError AssetData :=
  if ad.isEmpty then .error (.dataError "No asset data provided")
  else if (commonIndex ad).isEmpty then .error (.dataError "No common dates across all assets")
  else .ok (ad.map (fun e =>
    if e.1 ∈ tickers then
      (e.1, (commonIndex ad).filterMap (fun d => (assocFind e.2 d).map (fun c => (d, c))))
    else e))

/-- Equal weighting, `1.0 / len(self.tickers)` per ticker
(portfolio.py lines 83-85). -/
def equalWeights (tickers : List String) : List (String × ℚ) :=
  tickers.map (fun t => (t, 1 / (tickers.length : ℚ)))

/-- `_optimize_weights` (portfolio.py lines 108-130).  `vols t` stands for
`returns[t].std()`, the per-asset sample standard deviation of the aligned
simple returns — a float square root, hence passed as a parameter.  The row
count after `dropna()` is the common-calendar length minus one (the first
pct_change row is NaN; positive prices assumed so no other NaN arises). -/
def optimizeWeights (tickers : List String) (ad : AssetData) (vols : String → ℚ) :
    List (String × ℚ) :=
  if (commonIndex ad).length - 1 < 30 then equalWeights tickers
  else
    let invVolSum := (tickers.map (fun u => 1 / vols u)).sum
    tickers.map (fun t => (t, (1 / vols t) / invVolSum))

/-- `_calculate_initial_weights` (portfolio.py lines 81-106), branching on the
allocation method exactly in source order. -/
def calculateInitialWeights (tickers : List String) (ad : AssetData)
    (allocation : String) (customWeights : List (String × ℚ)) (vols : String → ℚ) :
    Except EngineError (List (String × ℚ)) :=
  if allocation = "equal" then .ok (equalWeights tickers)
  else if allocation = "custom" then
    let total := (customWeights.map (·.2)).sum
    if total = 0 then .error (.configError "Custom weights sum to zero")
    else .ok (tickers.map (fun t => (t, ((assocFind customWeights t).getD 0) / total)))
  else if allocation = "market_cap" then equalWeights tickers |> .ok
  else if allocation = "optimized" then .ok (optimizeWeights tickers ad vols)
  else .error (.configError ("Unknown allocation method: " ++ allocation))

/-- `PortfolioEngine.__init__` (portfolio.py lines 23-57): align the data
(mutating the caller's dict — the post-state is the first component), then
compute initial weights.  The `rebalancing` string is stored unvalidated;
no constructor branch inspects it. -/
def engineInit (tickers : List String) (ad : AssetData) (allocation : String)
    (customWeights : List (String × ℚ)) (vols : String → ℚ) :
    Except EngineError (AssetData × List (String × ℚ)) :=
  match alignData tickers ad with
  | .error e => .error e
  | .ok ad2 =>
    match calculateInitialWeights tickers ad2 allocation customWeights vols with
    | .error e => .error e
    | .ok w => .ok (ad2, w)

/-- `should_rebalance` (portfolio.py lines 132-162).  `target` and `current`
are weight vectors parallel to the ticker list.  Note the fall-through
`return False` for any unrecognized `rebalancing` value. -/
def shouldRebalance (rebalancing : String) (threshold : ℚ)
    (target current : List ℚ) (currentDate lastRebal : Date) : Bool :=
  if rebalancing = "none" then false
  else if rebalancing = "monthly" then decide (currentDate.m ≠ lastRebal.m)
  else if rebalancing = "quarterly" then
    decide ((currentDate.m - 1) / 3 ≠ (lastRebal.m - 1) / 3) || decide (currentDate.y ≠ lastRebal.y)
  else if rebalancing = "threshold" then
    (List.zipWith (fun c t => |c - t|) current target).any (fun drift => decide (threshold < drift))
  else false

/-- The drift step (portfolio.py lines 345-351):
`new_weights[t] = current[t] * (1 + r[t]) / total_value` with
`total_value = Σ current[t] * (1 + r[t])`. -/
def driftWeights (w r : List ℚ) : List ℚ :=
  let totalValue := (List.zipWith (fun wi ri => wi * (1 + ri)) w r).sum
  List.zipWith (fun wi ri => wi * (1 + ri) / totalValue) w r

/-- One entry of `weights_timeline`: Python dicts
`{'date': ..., 'weights': ..., 'rebalance': True}`; entries without the
`'rebalance'` key carry the pydantic default `False` (models.py line 150). -/
structure Snapshot where
  date : Date
  weights : List (String × ℚ)
  rebalance : Bool
deriving DecidableEq, Repr

/-- Loop state of `calculate_portfolio_returns` (portfolio.py lines 311-326).
The fields `chargedTurnovers`, `preDriftLog` and `costsPaid` are observation
logs of quantities the source computes at every rebalance (lines 360-363):
the step-7 turnover actually charged, the start-of-day (pre-drift) weight
vector in force when the charge occurs, and the portfolio value deducted
(`value * turnover * transaction_cost`).  They feed no later computation. -/
structure SimState where
  value : ℚ
  weights : List ℚ
  valuesLog : List ℚ
  timeline : List Snapshot
  rebalDates : List Date
  lastRebal : Date
  chargedTurnovers : List ℚ
  preDriftLog : List (List ℚ)
  costsPaid : List ℚ
deriving Repr

/-- Per-run constants of the simulation loop. -/
structure SimCfg where
  tickers : List String
  gated : List (List (Date × ℚ))
  target : List ℚ
  rebalancing : String
  threshold : ℚ
  tc : ℚ

/-- One iteration of the simulation loop (portfolio.py lines 328-378).
`isLast` is `i = len(common_index) - 1`; the drift/rebalance block runs only
when it is false (the `if i < len(common_index) - 1:` guard, line 344).
Note the day's portfolio value is appended to `portfolio_values` (line 341)
BEFORE any transaction-cost deduction (line 363).  The in-loop construction
of a fresh `PortfolioEngine` (lines 354-356) only serves to call
`should_rebalance` with `initial_weights` overwritten to the target vector,
which is what `shouldRebalance cfg.rebalancing cfg.threshold cfg.target`
expresses directly. -/
def simStep (cfg : SimCfg) (date : Date) (isLast : Bool) (st : SimState) : SimState :=
  let assetR := cfg.gated.map (fun g => (assocFind g date).getD 0)
  let periodReturn := (List.zipWith (· * ·) st.weights assetR).sum
  let v1 := st.value * (1 + periodReturn)
  let st1 : SimState := { st with
    timeline := st.timeline ++ [⟨date, cfg.tickers.zip st.weights, false⟩]
    value := v1
    valuesLog := st.valuesLog ++ [v1] }
  if isLast then st1
  else
    let newW := driftWeights st.weights assetR
    if shouldRebalance cfg.rebalancing cfg.threshold cfg.target newW date st.lastRebal then
      let turnover := (List.zipWith (fun tw nw => |tw - nw|) cfg.target newW).sum
      { st1 with
        value := v1 * (1 - turnover * cfg.tc)
        weights := cfg.target
        timeline := st1.timeline ++ [⟨date, cfg.tickers.zip cfg.target, true⟩]
        rebalDates := st.rebalDates ++ [date]
        lastRebal := date
        chargedTurnovers := st.chargedTurnovers ++ [turnover]
        preDriftLog := st.preDriftLog ++ [st.weights]
        costsPaid := st.costsPaid ++ [v1 * (turnover * cfg.tc)] }
    else { st1 with weights := newW }

/-- The `for i, date in enumerate(common_index)` loop (portfolio.py line 328),
processing dates in order;  `rest.isEmpty` decides the final-date guard. -/
def simLoop (cfg : SimCfg) : List Date → SimState → SimState
  | [], st => st
  | d :: rest, st => simLoop cfg rest (simStep cfg d rest.isEmpty st)

/-- `calculate_portfolio_returns` (portfolio.py lines 289-384).  Returns the
final loop state together with the reported daily return series
(`pd.Series(portfolio_values).pct_change().fillna(0)`, lines 381-382).
The target weight vector is read off the `weights` dict over the dict-key
ticker order, and `last_rebalance` starts at `common_index[0]`. -/
def calculatePortfolioReturns (ad : AssetData) (signals : List (String × List ℚ))
    (weights : List (String × ℚ)) (rebalancing : String) (threshold tc : ℚ) :
    SimState × List ℚ :=
  let tickers := ad.map (·.1)
  let common := commonIndex ad
  let gated := ad.map (fun e => gatedReturns e.2 (assocFind signals e.1))
  let target := tickers.map (fun t => (assocFind weights t).getD 0)
  let cfg : SimCfg := ⟨tickers, gated, target, rebalancing, threshold, tc⟩
  let st0 : SimState :=
    { value := 1, weights := target, valuesLog := [], timeline := [],
      rebalDates := [], lastRebal := common.headD ⟨0, 0, 0⟩,
      chargedTurnovers := [], preDriftLog := [], costsPaid := [] }
  let fin := simLoop cfg common st0
  (fin, pctChangeFill0 fin.valuesLog)

/-- `_calculate_turnover` (portfolio.py lines 219-242): for each rebalance
date, collect timeline entries with that date, take the first as `before` and
the last as `after`, and sum `abs(after.get(t, 0) - before.get(t, 0))` over
the tickers; average over the rebalance dates. -/
def calculateTurnover (tickers : List String) (timeline : List Snapshot)
    (rebalDates : List Date) : ℚ :=
  if rebalDates.length = 0 then 0
  else
    (rebalDates.map (fun date =>
      if 2 ≤ (timeline.filter (fun s => decide (s.date = date))).length then
        match (timeline.filter (fun s => decide (s.date = date))).head?,
            (timeline.filter (fun s => decide (s.date = date))).getLast? with
        | some before, some after =>
            (tickers.map (fun t =>
              |((assocFind after.weights t).getD 0) - ((assocFind before.weights t).getD 0)|)).sum
        | _, _ => 0
      else 0)).sum / (rebalDates.length : ℚ)

/-- The fields of the reported `PortfolioMetrics` record that are exactly
representable in ℚ.  `total_return`, `win_rate`, `num_rebalances`, `turnover`
and `rebalance_dates` come from the dict built by
`calculate_portfolio_metrics` (portfolio.py lines 205-217);
`annualized_return`, `volatility`, `sharpe_ratio`, `max_drawdown`,
`diversification_ratio` and `correlation_matrix` involve float roots/powers
and are claimed by no statement below, so they are not embedded.
`total_transaction_costs` and `transaction_cost_impact_pct` are NOT keys of
that dict; when `PortfolioMetrics(**portfolio_metrics_dict)` is built
(main.py line 371) they take the pydantic field defaults `0.0`
(models.py lines 168-169). -/
structure PortfolioMetrics where
  total_return : ℚ
  win_rate : ℚ
  num_rebalances : Nat
  turnover : ℚ
  rebalance_dates : List Date
  total_transaction_costs : ℚ
  transaction_cost_impact_pct : ℚ
deriving DecidableEq, Repr

/-- `calculate_portfolio_metrics` (portfolio.py lines 164-217) restricted to
the ℚ-exact fields, composed with the pydantic default fill of
`PortfolioMetrics(**dict)` (main.py line 371, models.py lines 168-169). -/
def calculatePortfolioMetrics (tickers : List String) (portfolioReturns : List ℚ)
    (timeline : List Snapshot) (rebalDates : List Date) : PortfolioMetrics :=
  { total_return := (portfolioReturns.map (fun r => 1 + r)).prod - 1
    win_rate := ((portfolioReturns.filter (fun r => decide (0 < r))).length : ℚ) /
      (portfolioReturns.length : ℚ)
    num_rebalances := rebalDates.length
    turnover := calculateTurnover tickers timeline rebalDates
    rebalance_dates := rebalDates
    total_transaction_costs := 0
    transaction_cost_impact_pct := 0 }

/-- The per-asset sharpe computation of `calculate_asset_metrics`
(portfolio.py lines 252-261): gate the given return series by the lagged
signal (missing signal ticker defaults to an all-ones series), then
`sharpe = strategy_returns.mean() * 252 / volatility if volatility > 0 else 0`
where `volatility = strategy_returns.std() * np.sqrt(252)` is a float square
root, passed here as the parameter `volatility` (constrained in the theorems
by `volatility ≥ 0` and `volatility² = 252 * sampleVarQ`). -/
def calculateAssetSharpe (returns : List ℚ) (sig : Option (List ℚ)) (volatility : ℚ) : ℚ :=
  let strategyReturns := gateSignals returns sig
  if 0 < volatility then meanQ strategyReturns * 252 / volatility else 0

/-! ### Concrete inputs used by counterexamples and witnesses -/

/-- Three consecutive trading dates. -/
def date0 : Date := ⟨2024, 1, 2⟩

/-- See `date0`. -/
def date1 : Date := ⟨2024, 1, 3⟩

/-- See `date0`. -/
def date2 : Date := ⟨2024, 1, 4⟩

/-- Two assets, asset A doubling on the FINAL date. -/
def adLate : AssetData :=
  [("A", [(date0, 100), (date1, 100), (date2, 200)]),
   ("B", [(date0, 100), (date1, 100), (date2, 100)])]

/-- Two assets, asset A doubling on the MIDDLE date. -/
def adMid : AssetData :=
  [("A", [(date0, 100), (date1, 200), (date2, 200)]),
   ("B", [(date0, 100), (date1, 100), (date2, 100)])]

/-- Equal target weights for tickers A and B. -/
def weightsEq2 : List (String × ℚ) := [("A", 1/2), ("B", 1/2)]

/-- Single asset doubling on the middle date (used for the missing-signal
claim). -/
def adSingle : AssetData := [("A", [(date0, 100), (date1, 200), (date2, 200)])]

/-- Two assets whose histories overlap only at `date1`. -/
def adOverlap : AssetData :=
  [("A", [(date0, 1), (date1, 2)]), ("B", [(date1, 5), (date2, 6)])]

/-- Dates spanning a month boundary. -/
def dateJan31 : Date := ⟨2024, 1, 31⟩

/-- See `dateJan31`. -/
def dateFeb1 : Date := ⟨2024, 2, 1⟩

/-- See `dateJan31`. -/
def dateFeb2 : Date := ⟨2024, 2, 2⟩

/-- Two assets crossing a month boundary, asset A doubling mid-run. -/
def adMonth : AssetData :=
  [("A", [(dateJan31, 100), (dateFeb1, 200), (dateFeb2, 200)]),
   ("B", [(dateJan31, 100), (dateFeb1, 100), (dateFeb2, 100)])]

/-- Two assets with no overlapping dates at all. -/
def adDisjoint : AssetData := [("A", [(date0, 100)]), ("B", [(date2, 100)])]

/-- A 31-row price history (30 return observations after `dropna`). -/
def bigFrame : Frame := (List.range 31).map (fun k => (⟨2024, 1, k + 1⟩, (100 + k : ℚ)))

/-- Two assets with 31-row aligned histories. -/
def adBig : AssetData := [("A", bigFrame), ("B", bigFrame)]

/-! ### General helper lemmas -/

/-- Sum of the growth-weighted vector splits into weight sum plus weighted
return sum. -/
lemma zipWith_growth_sum : ∀ (w r : List ℚ), w.length = r.length →
    (List.zipWith (fun wi ri => wi * (1 + ri)) w r).sum
      = w.sum + (List.zipWith (· * ·) w r).sum := by
  intro w
  induction w with
  | nil => intro r _; simp
  | cons a w ih =>
    intro r hr
    cases r with
    | nil => simp at hr
    | cons b r =>
      simp only [List.zipWith_cons_cons, List.sum_cons]
      rw [ih r (by simpa using hr)]
      ring

/-- Dividing each growth term by a constant divides the sum. -/
lemma zipWith_growth_div_sum (T : ℚ) : ∀ (w r : List ℚ),
    (List.zipWith (fun wi ri => wi * (1 + ri) / T) w r).sum
      = (List.zipWith (fun wi ri => wi * (1 + ri)) w r).sum / T := by
  intro w
  induction w with
  | nil => intro r; simp
  | cons a w ih =>
    intro r
    cases r with
    | nil => simp
    | cons b r => simp only [List.zipWith_cons_cons, List.sum_cons, ih, add_div]

/-- A successful association lookup returns a pair of the list. -/
lemma assocFind_mem {α β : Type} [DecidableEq α] :
    ∀ (l : List (α × β)) (k : α) (v : β), assocFind l k = some v → (k, v) ∈ l := by
  intro l
  induction l with
  | nil => intro k v h; exact absurd h (by simp [assocFind])
  | cons p rest ih =>
    intro k v h
    rw [assocFind] at h
    split at h
    · rename_i heq
      cases h
      simp [← heq]
    · exact List.mem_cons_of_mem _ (ih k v h)

/-- A key present in the key list has a successful lookup. -/
lemma assocFind_isSome_of_mem {α β : Type} [DecidableEq α] :
    ∀ (l : List (α × β)) (k : α), k ∈ l.map (·.1) → ∃ v, assocFind l k = some v := by
  intro l
  induction l with
  | nil => intro k h; simp at h
  | cons p rest ih =>
    intro k h
    rw [assocFind]
    split
    · exact ⟨p.2, rfl⟩
    · rename_i hne
      rw [List.map_cons] at h
      rcases List.mem_cons.mp h with h1 | h1
      · exact absurd h1.symm hne
      · exact ih k h1

/-- Every common-calendar date is a date of every frame. -/
lemma mem_frame_of_mem_commonIndex (ad : AssetData) (d : Date)
    (h : d ∈ commonIndex ad) : ∀ e ∈ ad, d ∈ e.2.map (·.1) := by
  intro e he
  cases ad with
  | nil => simp at he
  | cons e0 rest =>
    rw [commonIndex] at h
    have h2 := List.mem_filter.mp h
    rcases List.mem_cons.mp he with rfl | hr
    · exact h2.1
    · have h3 := List.all_eq_true.mp h2.2 e hr
      exact of_decide_eq_true h3

/-- Re-slicing a frame to a calendar whose dates are all present reproduces
exactly that calendar as the date index. -/
lemma slice_dates (f : Frame) : ∀ (ci : List Date),
    (∀ d ∈ ci, d ∈ f.map (·.1)) →
    (ci.filterMap (fun d => (assocFind f d).map (fun c => (d, c)))).map (·.1) = ci := by
  intro ci
  induction ci with
  | nil => intro _; rfl
  | cons d rest ih =>
    intro hall
    obtain ⟨c, hc⟩ := assocFind_isSome_of_mem f d (hall d (by simp))
    have hstep : (assocFind f d).map (fun c => (d, c)) = some (d, c) := by rw [hc]; rfl
    have hfm : List.filterMap (fun d => Option.map (fun c => (d, c)) (assocFind f d)) (d :: rest)
        = (d, c) :: List.filterMap (fun d => Option.map (fun c => (d, c)) (assocFind f d)) rest := by
      rw [List.filterMap_cons, hstep]
    rw [hfm, List.map_cons]
    rw [ih (fun x hx => hall x (List.mem_cons_of_mem _ hx))]

/-- Summing a constant-divided image. -/
lemma sum_map_div {α : Type} (f : α → ℚ) (c : ℚ) : ∀ (l : List α),
    ((l.map (fun x => f x / c)).sum) = (l.map f).sum / c := by
  intro l
  induction l with
  | nil => simp
  | cons a l ih => simp only [List.map_cons, List.sum_cons, ih, add_div]

/-- Reduction of the policy at the literal mode strings (proof by kernel
evaluation of the string comparisons). -/
lemma shouldRebalance_none_eq (thr : ℚ) (target current : List ℚ) (cd lr : Date) :
    shouldRebalance "none" thr target current cd lr = false := rfl

/-- See `shouldRebalance_none_eq`. -/
lemma shouldRebalance_monthly_eq (thr : ℚ) (target current : List ℚ) (cd lr : Date) :
    shouldRebalance "monthly" thr target current cd lr = decide (cd.m ≠ lr.m) := rfl

/-- See `shouldRebalance_none_eq`. -/
lemma shouldRebalance_threshold_eq (thr : ℚ) (target current : List ℚ) (cd lr : Date) :
    shouldRebalance "threshold" thr target current cd lr
      = (List.zipWith (fun c t => |c - t|) current target).any
          (fun drift => decide (thr < drift)) := rfl

/-- Any unrecognized mode string falls through to `false`; instance of the
final `return False` (portfolio.py line 162) at the literal "weekly". -/
lemma shouldRebalance_weekly_eq (thr : ℚ) (target current : List ℚ) (cd lr : Date) :
    shouldRebalance "weekly" thr target current cd lr = false := rfl

/-! ### Claim C9 -/

/-- Claim C9: drift conservation.  For any day whose starting weights sum
to 1 and whose portfolio growth factor `1 + Σ wᵢ·rᵢ` is nonzero, the drifted
weight vector produced by the simulator's drift step
(`new_weights[t] = current[t]·(1+r[t]) / Σ current·(1+r)`) again sums to
exactly 1 — in particular to 1 within the claimed 1e-9 tolerance. -/
theorem drift_conservation (w r : List ℚ) (hlen : w.length = r.length)
    (hsum : w.sum = 1) (hpr : 1 + (List.zipWith (· * ·) w r).sum ≠ 0) :
    (driftWeights w r).sum = 1 := by
  have hT : (List.zipWith (fun wi ri => wi * (1 + ri)) w r).sum
      = 1 + (List.zipWith (· * ·) w r).sum := by
    rw [zipWith_growth_sum w r hlen, hsum]
  rw [driftWeights]
  rw [zipWith_growth_div_sum, hT]
  exact div_self hpr

/-- Claim C9 witness: day with returns (+100%, 0%) from equal weights. -/
theorem drift_conservation_witness :
    ([(1 : ℚ)/2, 1/2].length = [(1 : ℚ), 0].length) ∧
    ([(1 : ℚ)/2, 1/2].sum = 1) ∧
    (1 + (List.zipWith (· * ·) [(1 : ℚ)/2, 1/2] [(1 : ℚ), 0]).sum ≠ 0) ∧
    (driftWeights [(1 : ℚ)/2, 1/2] [(1 : ℚ), 0]).sum = 1 :=
  ⟨by norm_num, by norm_num, by norm_num,
    drift_conservation [(1 : ℚ)/2, 1/2] [(1 : ℚ), 0] (by norm_num) (by norm_num) (by norm_num)⟩

/-! ### Claim C7 -/

/-- Claim C7: an empty intersection of the supplied date indices makes the engine
constructor fail with the `DataError` (`ValueError("No common dates across
all assets")`, portfolio.py line 73) before initial weights are computed:
the `Except` result carries no weight vector or any other partial result. -/
theorem no_common_dates_error (tickers : List String) (ad : AssetData)
    (allocation : String) (customWeights : List (String × ℚ)) (vols : String → ℚ)
    (hne : ad ≠ []) (hci : commonIndex ad = []) :
    engineInit tickers ad allocation customWeights vols
      = .error (.dataError "No common dates across all assets") := by
  have h1 : ad.isEmpty = false := by
    cases ad with
    | nil => exact absurd rfl hne
    | cons a l => rfl
  rw [engineInit, alignData, h1]
  simp [hci]

/-- Claim C7 witness: two tickers with disjoint single-date histories. -/
theorem no_common_dates_error_witness :
    (adDisjoint ≠ []) ∧ (commonIndex adDisjoint = []) ∧
    engineInit ["A", "B"] adDisjoint "equal" [] (fun _ => 1)
      = .error (.dataError "No common dates across all assets") :=
  ⟨by decide, by decide,
    no_common_dates_error ["A", "B"] adDisjoint "equal" [] (fun _ => 1) (by decide) (by decide)⟩

/-! ### Claim C1 -/

/-- Claim C1 counterexample: `adLate` makes asset A double on the FINAL
common date.  The drifted weights after that day's update would be
`driftWeights [1/2, 1/2] [1, 0] = [2/3, 1/3]`, on which the threshold policy
fires (third conjunct) — yet the run records no rebalance and deducts no
cost, because the `if i < len(common_index) - 1:` guard (portfolio.py
line 344) skips rebalance evaluation on the final date.  This falsifies the
claim that the policy is evaluated on every date including the final one. -/
theorem final_date_rebalance_skipped :
    gatedReturns [(date0, (100 : ℚ)), (date1, 100), (date2, 200)] none
        = [(date0, 0), (date1, 0), (date2, 1)] ∧
    gatedReturns [(date0, (100 : ℚ)), (date1, 100), (date2, 100)] none
        = [(date0, 0), (date1, 0), (date2, 0)] ∧
    (calculatePortfolioReturns adLate [] weightsEq2 "threshold" (1/20) (1/1000)).1.weights
        = [1/2, 1/2] ∧
    shouldRebalance "threshold" (1/20) [1/2, 1/2]
        (driftWeights [1/2, 1/2] [1, 0]) date2 date0 = true ∧
    (calculatePortfolioReturns adLate [] weightsEq2 "threshold" (1/20) (1/1000)).1.rebalDates
        = [] ∧
    (calculatePortfolioReturns adLate [] weightsEq2 "threshold" (1/20) (1/1000)).1.costsPaid
        = [] := by
  norm_num [calculatePortfolioReturns, simLoop, simStep, commonIndex, gatedReturns, gateSignals,
    pctChangeFill0, pctChangeAux, shiftFill0, assocFind, driftWeights, shouldRebalance_threshold_eq,
    adLate, weightsEq2, date0, date1, date2, abs_of_nonneg, abs_of_nonpos, List.replicate]

/-! ### Claim C2 -/

/-- Claim C2 counterexample: on `adMid` with threshold rebalancing, one
rebalance occurs, whose step-7 turnover (the value actually charged,
portfolio.py line 360) is 1/3 — so the claimed reported value is
mean [1/3] = 1/3 — yet the reported `turnover` metric is 0, because
`_calculate_turnover` diffs the target against the day's PRE-drift snapshot
(which already equals the target here) instead of the drifted weights. -/
theorem reported_turnover_counterexample :
    (calculatePortfolioReturns adMid [] weightsEq2 "threshold" (1/20) (1/100)).1.chargedTurnovers
        = [1/3] ∧
    meanQ (calculatePortfolioReturns adMid [] weightsEq2 "threshold" (1/20) (1/100)).1.chargedTurnovers
        = 1/3 ∧
    (calculatePortfolioMetrics ["A", "B"]
        (calculatePortfolioReturns adMid [] weightsEq2 "threshold" (1/20) (1/100)).2
        (calculatePortfolioReturns adMid [] weightsEq2 "threshold" (1/20) (1/100)).1.timeline
        (calculatePortfolioReturns adMid [] weightsEq2 "threshold" (1/20) (1/100)).1.rebalDates).turnover
        = 0 ∧
    ((1 : ℚ)/3 ≠ 0) := by
  norm_num [calculatePortfolioReturns, simLoop, simStep, commonIndex, gatedReturns, gateSignals,
    pctChangeFill0, pctChangeAux, shiftFill0, assocFind, driftWeights, shouldRebalance_threshold_eq,
    calculatePortfolioMetrics, calculateTurnover, meanQ,
    adMid, weightsEq2, date0, date1, date2, abs_of_nonneg, abs_of_nonpos, List.replicate]

/-! ### Claim C3 -/

/-- Claim C3: the reported `total_transaction_costs` and
`transaction_cost_impact_pct` are identically 0 for every run — the dict
built by `calculate_portfolio_metrics` has no such keys, so
`PortfolioMetrics(**dict)` takes the field defaults (models.py lines
168-169) — even though the simulator genuinely deducts value at rebalances:
on `adMid` the run pays 1/200 of portfolio value (second conjunct), which is
nonzero, while the reported fields stay 0.  The claim (fields equal the
value lost, nonzero here) is right about the intent — the field comments
read "Total transaction costs incurred" — and the code never populates
them. -/
theorem transaction_costs_never_reported :
    (∀ (tickers : List String) (portfolioReturns : List ℚ)
        (timeline : List Snapshot) (rebalDates : List Date),
      (calculatePortfolioMetrics tickers portfolioReturns timeline rebalDates).total_transaction_costs
          = 0 ∧
      (calculatePortfolioMetrics tickers portfolioReturns timeline rebalDates).transaction_cost_impact_pct
          = 0) ∧
    (calculatePortfolioReturns adMid [] weightsEq2 "threshold" (1/20) (1/100)).1.costsPaid
        = [1/200] ∧
    ((1 : ℚ)/200 ≠ 0) := by
  refine ⟨fun _ _ _ _ => ⟨rfl, rfl⟩, ?_, by norm_num⟩
  norm_num [calculatePortfolioReturns, simLoop, simStep, commonIndex, gatedReturns, gateSignals,
    pctChangeFill0, pctChangeAux, shiftFill0, assocFind, driftWeights, shouldRebalance_threshold_eq,
    adMid, weightsEq2, date0, date1, date2, abs_of_nonneg, abs_of_nonpos, List.replicate]

/-! ### Claim C4 -/

/-- Claim C4 counterexample: a ticker absent from `asset_signals` is gated by
a constant-1 series, not by 0.  Its gated returns reproduce the raw price
returns (here `[0, 1, 0]`, not the all-zero series the claim predicts), and
a run over that asset alone with an empty signal dict doubles the portfolio
value instead of leaving it flat at 1. -/
theorem missing_signal_counterexample :
    gatedReturns [(date0, (100 : ℚ)), (date1, 200), (date2, 200)] none
        = [(date0, 0), (date1, 1), (date2, 0)] ∧
    gatedReturns [(date0, (100 : ℚ)), (date1, 200), (date2, 200)] none
        ≠ [(date0, 0), (date1, 0), (date2, 0)] ∧
    (calculatePortfolioReturns adSingle [] [("A", 1)] "none" (1/20) 0).1.value = 2 ∧
    ((2 : ℚ) ≠ 1) := by
  norm_num [calculatePortfolioReturns, simLoop, simStep, commonIndex, gatedReturns, gateSignals,
    pctChangeFill0, pctChangeAux, shiftFill0, assocFind, driftWeights, shouldRebalance_none_eq,
    adSingle, date0, date1, date2, List.replicate]

/-- Multiplying by an all-ones list of matching length is the identity. -/
lemma zipWith_mul_replicate_one : ∀ (t : List ℚ),
    List.zipWith (· * ·) t (List.replicate t.length 1) = t := by
  intro t
  induction t with
  | nil => rfl
  | cons a t ih => simp only [List.length_cons, List.replicate_succ, List.zipWith_cons_cons,
      mul_one, ih]

/-- `dropLast` of one element consed onto its own replicate. -/
lemma dropLast_cons_replicate {α : Type} (a : α) :
    ∀ n : Nat, (a :: List.replicate n a).dropLast = List.replicate n a
  | 0 => rfl
  | (n + 1) => by
    rw [List.replicate_succ, List.dropLast_cons₂, dropLast_cons_replicate a n,
      ← List.replicate_succ]

/-- Claim C4 amended: a ticker missing from the signal dict is treated as
held throughout (constant signal 1), not as flat (0): its gated return
series is its raw return series with the first entry zeroed — and since the
engine's `pct_change().fillna(0)` already puts 0 first, the gated series of
`calculate_portfolio_returns` equals the raw buy-and-hold return series
exactly.  `gateSignals` is the shared gating computation of both the
simulator (portfolio.py lines 322-323) and `calculate_asset_metrics`
(lines 254-257), so the default applies to both. -/
theorem missing_signal_defaults_to_held :
    (∀ rs : List ℚ, gateSignals rs none = rs.set 0 0) ∧
    (∀ f : Frame, gatedReturns f none = (f.map (·.1)).zip (pctChangeFill0 (f.map (·.2)))) := by
  have h1 : ∀ rs : List ℚ, gateSignals rs none = rs.set 0 0 := by
    intro rs
    cases rs with
    | nil => rfl
    | cons x t =>
      show List.zipWith (· * ·) (x :: t)
          (shiftFill0 (List.replicate (x :: t).length 1)) = (x :: t).set 0 0
      rw [List.length_cons, List.replicate_succ]
      show List.zipWith (· * ·) (x :: t)
          (0 :: ((1 : ℚ) :: List.replicate t.length 1).dropLast) = (x :: t).set 0 0
      rw [dropLast_cons_replicate]
      show (x * 0) :: List.zipWith (· * ·) t (List.replicate t.length 1) = (x :: t).set 0 0
      rw [mul_zero, zipWith_mul_replicate_one]
      rfl
  refine ⟨h1, fun f => ?_⟩
  rw [gatedReturns, h1]
  cases f with
  | nil => rfl
  | cons p rest => rfl

/-! ### Claim C5 -/

/-- Claim C5 counterexample: aligning two partially-overlapping histories
rewrites the caller's `asset_data` dict in place — ticker A's rows shrink
from two to one — so the mapping is NOT unchanged after engine
initialization. -/
theorem align_mutation_counterexample :
    alignData ["A", "B"] adOverlap = .ok [("A", [(date1, 2)]), ("B", [(date1, 5)])] ∧
    ([("A", [(date1, 2)]), ("B", [(date1, 5)])] : AssetData) ≠ adOverlap := by
  refine ⟨by decide, by decide⟩

/-- Claim C5 amended: engine alignment mutates the caller's per-ticker data
in place, but in a controlled way — the key set and order are preserved,
every surviving row is one of the caller's original rows, each listed
ticker's index becomes exactly the common calendar, and tickers outside the
engine's ticker list are left untouched. -/
theorem alignData_slices_in_place (tickers : List String) (ad ad2 : AssetData)
    (h : alignData tickers ad = .ok ad2) :
    ad2.map (·.1) = ad.map (·.1) ∧
    List.Forall₂ (fun e e2 : String × Frame =>
      e2.1 = e.1 ∧
      (∀ r ∈ e2.2, r ∈ e.2) ∧
      (e.1 ∈ tickers → e2.2.map (·.1) = commonIndex ad) ∧
      (e.1 ∉ tickers → e2 = e)) ad ad2 := by
  rw [alignData] at h
  split at h
  · exact absurd h (by simp)
  · split at h
    · exact absurd h (by simp)
    · rw [Except.ok.injEq] at h
      subst h
      constructor
      · rw [List.map_map]
        refine List.map_congr_left (fun e he => ?_)
        by_cases hmem : e.1 ∈ tickers <;> simp [hmem]
      · rw [List.forall₂_map_right_iff, List.forall₂_same]
        intro e he
        by_cases hmem : e.1 ∈ tickers
        · refine ⟨by simp [hmem], ?_, ?_, fun hc => absurd hmem hc⟩
          · intro r hr
            simp only [if_pos hmem] at hr
            obtain ⟨d, _, hd2⟩ := List.mem_filterMap.mp hr
            obtain ⟨c, hc1, hc2⟩ := Option.map_eq_some.mp hd2
            cases hc2
            exact assocFind_mem e.2 d c hc1
          · intro _
            simp only [if_pos hmem]
            exact slice_dates e.2 (commonIndex ad)
              (fun d hd => mem_frame_of_mem_commonIndex ad d hd e he)
        · simp [hmem]

/-- Claim C5 witness: concrete instantiation of the amended theorem on the
partially-overlapping pair. -/
theorem alignData_slices_in_place_witness :
    (alignData ["A", "B"] adOverlap = .ok [("A", [(date1, 2)]), ("B", [(date1, 5)])]) ∧
    (([("A", [(date1, 2)]), ("B", [(date1, 5)])] : AssetData).map (·.1) = adOverlap.map (·.1) ∧
      List.Forall₂ (fun e e2 : String × Frame =>
        e2.1 = e.1 ∧
        (∀ r ∈ e2.2, r ∈ e.2) ∧
        (e.1 ∈ ["A", "B"] → e2.2.map (·.1) = commonIndex adOverlap) ∧
        (e.1 ∉ ["A", "B"] → e2 = e)) adOverlap [("A", [(date1, 2)]), ("B", [(date1, 5)])]) :=
  ⟨by decide,
    alignData_slices_in_place ["A", "B"] adOverlap
      [("A", [(date1, 2)]), ("B", [(date1, 5)])] (by decide)⟩

/-! ### Claim C10 -/

/-- Claim C10: the per-asset `sharpe_ratio` of `calculate_asset_metrics` is
the arithmetic-mean annualization `mean(gated) * 252 / (std(gated) * √252)`
— stated multiplicatively to keep the irrational `volatility` abstract: any
`vol` with `vol ≥ 0` and `vol² = 252 · var(gated)` (i.e. `vol = std·√252`)
satisfies `sharpe · vol = mean · 252` when `vol > 0`, and the sharpe is 0
when the gated-return variance (equivalently the volatility) is 0. -/
theorem asset_sharpe_formula (returns : List ℚ) (sig : Option (List ℚ)) (vol : ℚ)
    (_hv : 0 ≤ vol) (hc : vol * vol = 252 * sampleVarQ (gateSignals returns sig)) :
    (sampleVarQ (gateSignals returns sig) = 0 → calculateAssetSharpe returns sig vol = 0) ∧
    (0 < vol → calculateAssetSharpe returns sig vol * vol
        = meanQ (gateSignals returns sig) * 252) := by
  constructor
  · intro h0
    have hz : vol * vol = 0 := by rw [hc, h0, mul_zero]
    have hv0 : vol = 0 := mul_self_eq_zero.mp hz
    simp [calculateAssetSharpe, hv0]
  · intro hpos
    simp only [calculateAssetSharpe, if_pos hpos]
    exact div_mul_cancel₀ _ (ne_of_gt hpos)

/-- Claim C10 witness: seven returns whose gated series is
`[0, 1, 1, 1, 1, 1, 1]` has sample variance 1/7, so `vol = 6` satisfies
`vol² = 252/7 = 36`; the sharpe equation follows by the theorem. -/
theorem asset_sharpe_formula_witness :
    (0 ≤ (6 : ℚ)) ∧
    ((6 : ℚ) * 6 = 252 * sampleVarQ (gateSignals [5, 1, 1, 1, 1, 1, 1] none)) ∧
    (0 < (6 : ℚ) → calculateAssetSharpe [5, 1, 1, 1, 1, 1, 1] none 6 * 6
        = meanQ (gateSignals [5, 1, 1, 1, 1, 1, 1] none) * 252) :=
  ⟨by norm_num,
   by norm_num [sampleVarQ, meanQ, gateSignals, shiftFill0, List.replicate],
   (asset_sharpe_formula [5, 1, 1, 1, 1, 1, 1] none 6 (by norm_num)
      (by norm_num [sampleVarQ, meanQ, gateSignals, shiftFill0, List.replicate])).2⟩

/-! ### Claim C6 -/

/-- Claim C6 counterexample: supplying the unknown rebalancing value
"weekly" raises nothing.  The engine constructor succeeds (the constructor
never validates the rebalancing string), and a full simulation under
"weekly" silently behaves as never-rebalance — `should_rebalance` falls
through to `return False` (portfolio.py line 162) — even on an input where
"monthly" does rebalance.  This falsifies the "only if" direction of the
claim for unknown rebalancing enum values. -/
theorem unknown_rebalancing_counterexample :
    engineInit ["A", "B"] adMonth "equal" [] (fun _ => 1)
        = .ok (adMonth, [("A", 1/2), ("B", 1/2)]) ∧
    ("weekly" : String) ∉ (["none", "monthly", "quarterly", "threshold"] : List String) ∧
    (calculatePortfolioReturns adMonth [] weightsEq2 "weekly" (1/20) (1/1000)).1.rebalDates
        = [] ∧
    (calculatePortfolioReturns adMonth [] weightsEq2 "weekly" (1/20) (1/1000)).1.costsPaid
        = [] ∧
    (calculatePortfolioReturns adMonth [] weightsEq2 "monthly" (1/20) (1/1000)).1.rebalDates
        = [dateFeb1] := by
  refine ⟨?_, by decide, ?_, ?_, ?_⟩ <;>
    norm_num [engineInit, alignData, calculateInitialWeights, equalWeights,
      calculatePortfolioReturns, simLoop, simStep, commonIndex, gatedReturns, gateSignals,
      pctChangeFill0, pctChangeAux, shiftFill0, assocFind, driftWeights,
      shouldRebalance_weekly_eq, shouldRebalance_monthly_eq, List.filterMap_cons,
      Date.mk.injEq, adMonth, weightsEq2, dateJan31, dateFeb1, dateFeb2,
      abs_of_nonneg, abs_of_nonpos, List.replicate]

/-- Claim C6 amended: with usable data (nonempty dict, nonempty common
calendar), the run raises the `ConfigError` `ValueError` if and only if the
allocation method is `custom` with weights summing to zero, or the
allocation method itself is unknown.  An unknown REBALANCING value raises
nothing anywhere: the constructor stores it unvalidated and
`should_rebalance` returns `False` for it (so it silently acts as `none`).
When the error is raised it propagates unmodified and no weights are
produced (the `Except` is the whole result). -/
theorem config_error_iff (tickers : List String) (ad : AssetData)
    (allocation : String) (customWeights : List (String × ℚ)) (vols : String → ℚ)
    (hne : ad ≠ []) (hci : commonIndex ad ≠ []) :
    ((∃ msg, engineInit tickers ad allocation customWeights vols
        = .error (.configError msg)) ↔
      ((allocation = "custom" ∧ (customWeights.map (·.2)).sum = 0) ∨
        allocation ∉ (["equal", "custom", "market_cap", "optimized"] : List String))) ∧
    (∀ (reb : String) (thr : ℚ) (target current : List ℚ) (cd lr : Date),
      reb ∉ (["none", "monthly", "quarterly", "threshold"] : List String) →
      shouldRebalance reb thr target current cd lr = false) := by
  have h1 : ad.isEmpty = false := by
    cases ad with
    | nil => exact absurd rfl hne
    | cons a l => rfl
  have h2 : (commonIndex ad).isEmpty = false := by
    cases hcc : commonIndex ad with
    | nil => exact absurd hcc hci
    | cons a l => rfl
  constructor
  · have halign : alignData tickers ad = .ok (ad.map (fun e =>
        if e.1 ∈ tickers then
          (e.1, (commonIndex ad).filterMap (fun d => (assocFind e.2 d).map (fun c => (d, c))))
        else e)) := by
      rw [alignData, h1, h2]
      simp
    simp only [engineInit, halign]
    simp only [calculateInitialWeights]
    by_cases ha : allocation = "equal"
    · simp [ha]
    · by_cases hb : allocation = "custom"
      · subst hb
        by_cases hsum : (customWeights.map (·.2)).sum = 0
        · simp [hsum]
        · simp [hsum]
      · by_cases hc2 : allocation = "market_cap"
        · simp [ha, hb, hc2]
        · by_cases hd : allocation = "optimized"
          · simp [ha, hb, hc2, hd]
          · simp [ha, hb, hc2, hd]
  · intro reb thr target current cd lr hmem
    simp only [List.mem_cons, List.not_mem_nil, or_false, not_or] at hmem
    obtain ⟨hn, hm, hq, ht⟩ := hmem
    rw [shouldRebalance]
    simp [hn, hm, hq, ht]

/-- Claim C6 witness: Scenario C (`custom_weights = {A: 0, B: 0}`) through
the amended iff — the run fails with the `ConfigError`. -/
theorem config_error_iff_witness :
    (adMid ≠ []) ∧ (commonIndex adMid ≠ []) ∧
    (∃ msg, engineInit ["A", "B"] adMid "custom" [("A", 0), ("B", 0)] (fun _ => 1)
        = .error (.configError msg)) :=
  ⟨by decide, by decide,
    ((config_error_iff ["A", "B"] adMid "custom" [("A", 0), ("B", 0)] (fun _ => 1)
        (by decide) (by decide)).1).mpr (Or.inl ⟨rfl, by norm_num⟩)⟩

/-! ### Claim C8 -/

/-- Claim C8 counterexample: with fewer than 30 return observations the
`optimized` run is literally indistinguishable from an `equal` run — the
whole engine result coincides — so the insufficient-sample condition is NOT
reported as any annotation on the result (it is only written to the log, a
side channel the caller's result does not contain). -/
theorem insufficient_sample_counterexample :
    engineInit ["A", "B"] adMid "optimized" [] (fun _ => 1)
        = engineInit ["A", "B"] adMid "equal" [] (fun _ => 1) ∧
    optimizeWeights ["A", "B"] adMid (fun _ => 1) = equalWeights ["A", "B"] ∧
    (commonIndex adMid).length - 1 < 30 :=
  ⟨rfl, rfl, by decide⟩

/-- Claim C8 amended: under `optimized` allocation, fewer than 30 return
observations fall back to exactly the equal weights (the warning goes only
to the logger, not onto the result); with 30 or more observations each
ticker's weight is `(1/std) / Σ(1/std)` — inverse-volatility weights,
summing to 1 whenever `Σ(1/std) ≠ 0`, and pairwise proportional to `1/std`. -/
theorem optimizeWeights_spec (tickers : List String) (ad : AssetData) (vols : String → ℚ) :
    ((commonIndex ad).length - 1 < 30 →
      optimizeWeights tickers ad vols = equalWeights tickers) ∧
    (30 ≤ (commonIndex ad).length - 1 →
      (optimizeWeights tickers ad vols
          = tickers.map (fun t => (t, (1 / vols t) / (tickers.map (fun u => 1 / vols u)).sum)) ∧
       ((tickers.map (fun u => 1 / vols u)).sum ≠ 0 →
         ((optimizeWeights tickers ad vols).map (·.2)).sum = 1) ∧
       (∀ p ∈ optimizeWeights tickers ad vols, ∀ q ∈ optimizeWeights tickers ad vols,
         p.2 * (1 / vols q.1) = q.2 * (1 / vols p.1)))) := by
  constructor
  · intro h
    rw [optimizeWeights, if_pos h]
  · intro h
    have hnot : ¬((commonIndex ad).length - 1 < 30) := Nat.not_lt.mpr h
    have hw : optimizeWeights tickers ad vols
        = tickers.map (fun t => (t, (1 / vols t) / (tickers.map (fun u => 1 / vols u)).sum)) := by
      rw [optimizeWeights, if_neg hnot]
    refine ⟨hw, ?_, ?_⟩
    · intro hS
      rw [hw, List.map_map]
      have hcomp : ((fun x : String × ℚ => x.2) ∘
          (fun t => (t, (1 / vols t) / (tickers.map (fun u => 1 / vols u)).sum)))
          = fun t => (1 / vols t) / (tickers.map (fun u => 1 / vols u)).sum := rfl
      rw [hcomp, sum_map_div, div_self hS]
    · intro p hp q hq
      rw [hw] at hp hq
      obtain ⟨t, _, rfl⟩ := List.mem_map.mp hp
      obtain ⟨u, _, rfl⟩ := List.mem_map.mp hq
      show (1 / vols t) / _ * (1 / vols u) = (1 / vols u) / _ * (1 / vols t)
      ring

/-- Claim C8 witness: 31-row histories (30 return observations) with a
positive std for each ticker give inverse-volatility weights summing to 1. -/
theorem optimizeWeights_spec_witness :
    (30 ≤ (commonIndex adBig).length - 1) ∧
    ((["A", "B"].map (fun u => 1 / (fun _ : String => (2 : ℚ)) u)).sum ≠ 0) ∧
    ((optimizeWeights ["A", "B"] adBig (fun _ => (2 : ℚ))).map (·.2)).sum = 1 :=
  ⟨by decide, by norm_num,
    (((optimizeWeights_spec ["A", "B"] adBig (fun _ => (2 : ℚ))).2 (by decide)).2).1
      (by norm_num)⟩

/-! ### Claim C1 amended: loop lemmas -/

/-- A single simulation step can only append the current date to the
rebalance log, and only when the final-date guard is off. -/
lemma rebalDates_simStep (cfg : SimCfg) (date : Date) (b : Bool) (st : SimState) (d : Date)
    (h : d ∈ (simStep cfg date b st).rebalDates) :
    d ∈ st.rebalDates ∨ (b = false ∧ d = date) := by
  rw [simStep] at h
  cases b with
  | true =>
    left
    simpa using h
  | false =>
    simp only [Bool.false_eq_true, if_false] at h
    split at h
    · rcases (by simpa using h : d ∈ st.rebalDates ∨ d = date) with h1 | h1
      · exact Or.inl h1
      · exact Or.inr ⟨rfl, h1⟩
    · exact Or.inl (by simpa using h)

/-- Across the whole loop, every rebalance date comes from the initial log
or from a calendar date that still has a successor. -/
lemma rebalDates_simLoop (cfg : SimCfg) :
    ∀ (dates : List Date) (st : SimState) (d : Date),
      d ∈ (simLoop cfg dates st).rebalDates → d ∈ st.rebalDates ∨ d ∈ dates.dropLast := by
  intro dates
  induction dates with
  | nil =>
    intro st d h
    exact Or.inl h
  | cons d0 rest ih =>
    intro st d h
    rw [simLoop] at h
    rcases ih _ d h with h1 | h1
    · rcases rebalDates_simStep cfg d0 rest.isEmpty st d h1 with h2 | ⟨hb, rfl⟩
      · exact Or.inl h2
      · cases rest with
        | nil => simp at hb
        | cons r rs =>
          right
          rw [List.dropLast_cons₂]
          exact List.mem_cons_self _ _
    · cases rest with
      | nil => simp at h1
      | cons r rs =>
        right
        rw [List.dropLast_cons₂]
        exact List.mem_cons_of_mem _ h1

/-- Claim C1 amended: the rebalance policy is evaluated (drift, policy
check, cost deduction, log entry) only on dates that still have a successor
in the common calendar — the `if i < len(common_index) - 1:` guard
(portfolio.py line 344) — so for a duplicate-free calendar the FINAL date
can never appear in the rebalance log, whatever the data, signals, weights,
policy, threshold or cost are. -/
theorem rebalance_never_on_final_date (ad : AssetData) (signals : List (String × List ℚ))
    (weights : List (String × ℚ)) (rebalancing : String) (threshold tc : ℚ)
    (hnd : (commonIndex ad).Nodup) (hne : commonIndex ad ≠ []) :
    (commonIndex ad).getLast hne ∉
      (calculatePortfolioReturns ad signals weights rebalancing threshold tc).1.rebalDates := by
  intro hmem
  rw [calculatePortfolioReturns] at hmem
  simp only at hmem
  rcases rebalDates_simLoop _ (commonIndex ad) _ _ hmem with h1 | h1
  · simp at h1
  · have hsplit := List.dropLast_append_getLast hne
    rw [← hsplit] at hnd
    have hdisj := (List.nodup_append.mp hnd).2.2
    exact hdisj h1 (List.mem_singleton_self _)

/-- Claim C1 witness: the `adLate` calendar is duplicate-free and nonempty;
its last date (where asset A doubles) is not in the rebalance log. -/
theorem rebalance_never_on_final_date_witness :
    ((commonIndex adLate).Nodup) ∧ (commonIndex adLate ≠ []) ∧
    ∀ h : commonIndex adLate ≠ [],
      (commonIndex adLate).getLast h ∉
        (calculatePortfolioReturns adLate [] weightsEq2 "threshold" (1/20) (1/1000)).1.rebalDates :=
  ⟨by decide, by decide,
    fun h => rebalance_never_on_final_date adLate [] weightsEq2 "threshold" (1/20) (1/1000)
      (by decide) h⟩

/-! ### Claim C2 amended: timeline bookkeeping invariant -/

/-- `Forall₂` gives a related partner for every left element. -/
lemma forall₂_mem_left {α β : Type} {R : α → β → Prop} :
    ∀ {as : List α} {bs : List β}, List.Forall₂ R as bs →
      ∀ a ∈ as, ∃ b, b ∈ bs ∧ R a b := by
  intro as bs h
  induction h with
  | nil => intro a ha; exact absurd ha (List.not_mem_nil a)
  | cons hR htail ih =>
    intro a ha
    rcases List.mem_cons.mp ha with rfl | ha2
    · exact ⟨_, List.mem_cons_self _ _, hR⟩
    · obtain ⟨b, hb, hRb⟩ := ih a ha2
      exact ⟨b, List.mem_cons_of_mem _ hb, hRb⟩

/-- `Forall₂` is preserved by appending one related pair. -/
lemma forall₂_append_single {α β : Type} {R : α → β → Prop} {as : List α} {bs : List β}
    {a : α} {b : β} (h : List.Forall₂ R as bs) (hab : R a b) :
    List.Forall₂ R (as ++ [a]) (bs ++ [b]) := by
  induction h with
  | nil => exact List.Forall₂.cons hab List.Forall₂.nil
  | cons hR _ ih => exact List.Forall₂.cons hR ih

/-- Sums of images agree along a `Forall₂` when the functions agree on
related pairs. -/
lemma sum_map_eq_of_forall₂ {α β : Type} {R : α → β → Prop} (f : α → ℚ) (g : β → ℚ) :
    ∀ {as : List α} {bs : List β}, List.Forall₂ R as bs →
      (∀ a b, R a b → b ∈ bs → f a = g b) → (as.map f).sum = (bs.map g).sum := by
  intro as bs h
  induction h with
  | nil => intro _; rfl
  | cons hR htail ih =>
    intro hfg
    simp only [List.map_cons, List.sum_cons]
    rw [hfg _ _ hR (List.mem_cons_self _ _),
      ih (fun x y hxy hy => hfg x y hxy (List.mem_cons_of_mem _ hy))]

/-- Looking every ticker up in the zip of the tickers with a parallel value
list recovers the value list (tickers duplicate-free, lengths equal) —
the bridge between the snapshot dicts and the simulator's weight vectors. -/
lemma map_assocFind_zip : ∀ (ts : List String) (ws : List ℚ), ts.Nodup →
    ws.length = ts.length →
    ts.map (fun t => (assocFind (ts.zip ws) t).getD 0) = ws := by
  intro ts
  induction ts with
  | nil =>
    intro ws _ hlen
    cases ws with
    | nil => rfl
    | cons w ws => simp at hlen
  | cons t0 ts' ih =>
    intro ws hnd hlen
    cases ws with
    | nil => simp at hlen
    | cons w ws' =>
      have hnotin : t0 ∉ ts' := (List.nodup_cons.mp hnd).1
      have hnd' : ts'.Nodup := (List.nodup_cons.mp hnd).2
      have hlen' : ws'.length = ts'.length := by simpa using hlen
      simp only [List.zip_cons_cons, List.map_cons]
      congr 1
      · rw [assocFind]
        simp
      · have hstep : ∀ t ∈ ts',
            (assocFind ((t0, w) :: ts'.zip ws') t).getD 0
              = (assocFind (ts'.zip ws') t).getD 0 := by
          intro t htmem
          rw [assocFind]
          have : ¬(t0 = t) := fun hc => hnotin (hc ▸ htmem)
          simp [this]
        rw [List.map_congr_left hstep]
        exact ih ws' hnd' hlen'

/-- Per-event turnover as `_calculate_turnover` computes it from the two
snapshot dicts equals the zipWith over the parallel weight vectors. -/
lemma map_abs_diff_zip (ts : List String) (as bs : List ℚ) (hnd : ts.Nodup)
    (ha : as.length = ts.length) (hb : bs.length = ts.length) :
    ts.map (fun t => |(assocFind (ts.zip as) t).getD 0 - (assocFind (ts.zip bs) t).getD 0|)
      = List.zipWith (fun a b => |a - b|) as bs := by
  conv_rhs => rw [← map_assocFind_zip ts as hnd ha, ← map_assocFind_zip ts bs hnd hb,
    List.zipWith_map, List.zipWith_same]

/-- Loop invariant tying the recorded `weights_timeline` to the rebalance
log: live weight vectors stay ticker-length; every recorded snapshot's date
has already been processed; and each rebalance date's timeline entries are
exactly its pre-drift (start-of-day) snapshot followed by its post-reset
target snapshot, where the pre-drift vectors are the ghost `preDriftLog`. -/
def TimelineInv (cfg : SimCfg) (remaining : List Date) (st : SimState) : Prop :=
  st.weights.length = cfg.tickers.length ∧
  (∀ s ∈ st.timeline, s.date ∉ remaining) ∧
  (∀ w ∈ st.preDriftLog, w.length = cfg.tickers.length) ∧
  List.Forall₂ (fun d pre =>
      st.timeline.filter (fun s => decide (s.date = d))
        = [⟨d, cfg.tickers.zip pre, false⟩, ⟨d, cfg.tickers.zip cfg.target, true⟩])
    st.rebalDates st.preDriftLog

/-- One simulation step preserves the timeline invariant. -/
lemma timelineInv_simStep (cfg : SimCfg) (hg : cfg.gated.length = cfg.tickers.length)
    (ht : cfg.target.length = cfg.tickers.length)
    (date : Date) (rest : List Date) (st : SimState)
    (hnotin : date ∉ rest) (h : TimelineInv cfg (date :: rest) st) :
    TimelineInv cfg rest (simStep cfg date rest.isEmpty st) := by
  obtain ⟨hw, hdates, hpre, hmatch⟩ := h
  have hfilter_pres : ∀ (d : Date) (pre : List ℚ),
      st.timeline.filter (fun s => decide (s.date = d))
        = [⟨d, cfg.tickers.zip pre, false⟩, ⟨d, cfg.tickers.zip cfg.target, true⟩] →
      ∀ extra : List Snapshot, (∀ s ∈ extra, s.date = date) →
      (st.timeline ++ extra).filter (fun s => decide (s.date = d))
        = [⟨d, cfg.tickers.zip pre, false⟩, ⟨d, cfg.tickers.zip cfg.target, true⟩] := by
    intro d pre hfil extra hex
    have hdmem : (⟨d, cfg.tickers.zip pre, false⟩ : Snapshot) ∈ st.timeline := by
      have hmem2 : (⟨d, cfg.tickers.zip pre, false⟩ : Snapshot)
          ∈ st.timeline.filter (fun s => decide (s.date = d)) := by
        rw [hfil]
        exact List.mem_cons_self _ _
      exact List.mem_of_mem_filter hmem2
    have hdne : d ≠ date := by
      intro heq
      exact hdates _ hdmem (by rw [heq]; exact List.mem_cons_self _ _)
    rw [List.filter_append, hfil]
    have hextra : extra.filter (fun s => decide (s.date = d)) = [] := by
      rw [List.filter_eq_nil_iff]
      intro s hs
      simp only [decide_eq_true_eq]
      rw [hex s hs]
      exact fun hc => hdne hc.symm
    rw [hextra, List.append_nil]
  cases rest with
  | nil =>
    simp only [simStep, List.isEmpty_nil, if_true]
    refine ⟨hw, fun s _ => List.not_mem_nil _, hpre, ?_⟩
    refine List.Forall₂.imp ?_ hmatch
    intro d pre hfil
    exact hfilter_pres d pre hfil [⟨date, cfg.tickers.zip st.weights, false⟩]
      (fun s hs => by rw [List.mem_singleton.mp hs])
  | cons r rs =>
    simp only [simStep, List.isEmpty_cons, Bool.false_eq_true, if_false]
    have hnil_at_date : st.timeline.filter (fun s => decide (s.date = date)) = [] := by
      rw [List.filter_eq_nil_iff]
      intro s hs
      simp only [decide_eq_true_eq]
      exact fun hc => (hdates _ hs) (by rw [hc]; exact List.mem_cons_self _ _)
    by_cases hsr : shouldRebalance cfg.rebalancing cfg.threshold cfg.target
        (driftWeights st.weights (cfg.gated.map (fun g => (assocFind g date).getD 0)))
        date st.lastRebal = true
    · rw [if_pos hsr]
      refine ⟨ht, ?_, ?_, ?_⟩
      · intro s hs
        rcases List.mem_append.mp hs with hs1 | hs1
        · rcases List.mem_append.mp hs1 with hs2 | hs2
          · exact fun hc => hdates _ hs2 (List.mem_cons_of_mem _ hc)
          · rw [List.mem_singleton.mp hs2]
            exact hnotin
        · rw [List.mem_singleton.mp hs1]
          exact hnotin
      · intro w hw2
        rcases List.mem_append.mp hw2 with h1 | h1
        · exact hpre w h1
        · rw [List.mem_singleton.mp h1]
          exact hw
      · apply forall₂_append_single
        · refine List.Forall₂.imp ?_ hmatch
          intro d pre hfil
          rw [List.append_assoc]
          exact hfilter_pres d pre hfil
            ([⟨date, cfg.tickers.zip st.weights, false⟩]
              ++ [⟨date, cfg.tickers.zip cfg.target, true⟩])
            (fun s hs => by
              rcases List.mem_append.mp hs with h3 | h3 <;> rw [List.mem_singleton.mp h3])
        · rw [List.append_assoc, List.filter_append, hnil_at_date, List.nil_append]
          simp
    · rw [if_neg hsr]
      refine ⟨?_, ?_, hpre, ?_⟩
      · rw [driftWeights]
        rw [List.length_zipWith, List.length_map, hw, hg, min_self]
      · intro s hs
        rcases List.mem_append.mp hs with hs1 | hs1
        · exact fun hc => hdates _ hs1 (List.mem_cons_of_mem _ hc)
        · rw [List.mem_singleton.mp hs1]
          exact hnotin
      · refine List.Forall₂.imp ?_ hmatch
        intro d pre hfil
        exact hfilter_pres d pre hfil [⟨date, cfg.tickers.zip st.weights, false⟩]
          (fun s hs => by rw [List.mem_singleton.mp hs])

/-- The timeline invariant holds at the end of the loop. -/
lemma timelineInv_simLoop (cfg : SimCfg) (hg : cfg.gated.length = cfg.tickers.length)
    (ht : cfg.target.length = cfg.tickers.length) :
    ∀ (dates : List Date) (st : SimState), dates.Nodup → TimelineInv cfg dates st →
      TimelineInv cfg [] (simLoop cfg dates st) := by
  intro dates
  induction dates with
  | nil =>
    intro st _ h
    exact h
  | cons d0 rest ih =>
    intro st hnd h
    rw [simLoop]
    exact ih _ (List.nodup_cons.mp hnd).2
      (timelineInv_simStep cfg hg ht d0 rest st (List.nodup_cons.mp hnd).1 h)

/-- From the invariant, `_calculate_turnover` on the produced timeline
computes the mean over rebalance events of Σ|target − pre-drift weight|. -/
lemma calculateTurnover_eq_of_inv (cfg : SimCfg) (st : SimState)
    (hndT : cfg.tickers.Nodup) (ht : cfg.target.length = cfg.tickers.length)
    (h : TimelineInv cfg [] st) :
    calculateTurnover cfg.tickers st.timeline st.rebalDates
      = if st.rebalDates.length = 0 then 0
        else (st.preDriftLog.map
            (fun pre => (List.zipWith (fun a b => |a - b|) cfg.target pre).sum)).sum
          / (st.rebalDates.length : ℚ) := by
  obtain ⟨_, _, hpre, hmatch⟩ := h
  rw [calculateTurnover]
  by_cases hemp : st.rebalDates.length = 0
  · rw [if_pos hemp, if_pos hemp]
  · rw [if_neg hemp, if_neg hemp]
    congr 1
    refine sum_map_eq_of_forall₂ _ _ hmatch ?_
    intro d pre hfil hpmem
    rw [hfil]
    show (cfg.tickers.map (fun t =>
        |(assocFind (cfg.tickers.zip cfg.target) t).getD 0
          - (assocFind (cfg.tickers.zip pre) t).getD 0|)).sum
      = (List.zipWith (fun a b => |a - b|) cfg.target pre).sum
    rw [map_abs_diff_zip cfg.tickers cfg.target pre hndT ht (hpre pre hpmem)]

/-- Turnover characterization for any run whose initial state has empty
logs and target weights. -/
lemma calculateTurnover_eq_final (cfg : SimCfg) (dates : List Date) (st0 : SimState)
    (hndC : dates.Nodup) (hndT : cfg.tickers.Nodup)
    (hg : cfg.gated.length = cfg.tickers.length)
    (ht : cfg.target.length = cfg.tickers.length)
    (h0t : st0.timeline = []) (h0r : st0.rebalDates = []) (h0p : st0.preDriftLog = [])
    (h0w : st0.weights = cfg.target) :
    calculateTurnover cfg.tickers (simLoop cfg dates st0).timeline
        (simLoop cfg dates st0).rebalDates
      = if (simLoop cfg dates st0).rebalDates.length = 0 then 0
        else ((simLoop cfg dates st0).preDriftLog.map
            (fun pre => (List.zipWith (fun a b => |a - b|) cfg.target pre).sum)).sum
          / ((simLoop cfg dates st0).rebalDates.length : ℚ) := by
  have hinit : TimelineInv cfg dates st0 := by
    refine ⟨by rw [h0w]; exact ht, ?_, ?_, ?_⟩
    · rw [h0t]
      intro s hs
      exact absurd hs (List.not_mem_nil s)
    · rw [h0p]
      intro w hw
      exact absurd hw (List.not_mem_nil w)
    · rw [h0r, h0p]
      exact List.Forall₂.nil
  exact calculateTurnover_eq_of_inv cfg _ hndT ht
    (timelineInv_simLoop cfg hg ht dates st0 hndC hinit)

/-- Claim C2 amended: the reported portfolio `turnover` metric is the mean,
over the run's rebalance events, of Σ over assets of
|target weight − START-OF-DAY (pre-drift) weight| at that event — not of the
step-7 turnover Σ|target − drifted weight| that prices the cost deduction —
and it is 0 when there are no rebalances.  `preDriftLog` is the ghost record
of the start-of-day weight vectors at each rebalance. -/
theorem reported_turnover_uses_predrift (ad : AssetData) (signals : List (String × List ℚ))
    (weights : List (String × ℚ)) (rebalancing : String) (threshold tc : ℚ)
    (hndT : (ad.map (·.1)).Nodup) (hndC : (commonIndex ad).Nodup) :
    (calculatePortfolioMetrics (ad.map (·.1))
        (calculatePortfolioReturns ad signals weights rebalancing threshold tc).2
        (calculatePortfolioReturns ad signals weights rebalancing threshold tc).1.timeline
        (calculatePortfolioReturns ad signals weights rebalancing threshold tc).1.rebalDates).turnover
      = if ((calculatePortfolioReturns ad signals weights rebalancing threshold tc).1.rebalDates).length = 0
        then 0
        else (((calculatePortfolioReturns ad signals weights rebalancing threshold tc).1.preDriftLog).map
            (fun pre => (List.zipWith (fun a b => |a - b|)
              ((ad.map (·.1)).map (fun t => (assocFind weights t).getD 0)) pre).sum)).sum
          / (((calculatePortfolioReturns ad signals weights rebalancing threshold tc).1.rebalDates).length : ℚ) := by
  exact calculateTurnover_eq_final
    ⟨ad.map (·.1), ad.map (fun e => gatedReturns e.2 (assocFind signals e.1)),
      (ad.map (·.1)).map (fun t => (assocFind weights t).getD 0), rebalancing, threshold, tc⟩
    (commonIndex ad)
    { value := 1, weights := (ad.map (·.1)).map (fun t => (assocFind weights t).getD 0),
      valuesLog := [], timeline := [], rebalDates := [],
      lastRebal := (commonIndex ad).headD ⟨0, 0, 0⟩,
      chargedTurnovers := [], preDriftLog := [], costsPaid := [] }
    hndC hndT (by simp) (by simp) rfl rfl rfl rfl

/-- Claim C2 witness: the amended formula instantiated on the `adMid`
threshold run (one rebalance, pre-drift weights equal to the target). -/
theorem reported_turnover_uses_predrift_witness :
    ((adMid.map (·.1)).Nodup) ∧ ((commonIndex adMid).Nodup) ∧
    (calculatePortfolioMetrics (adMid.map (·.1))
        (calculatePortfolioReturns adMid [] weightsEq2 "threshold" (1/20) (1/100)).2
        (calculatePortfolioReturns adMid [] weightsEq2 "threshold" (1/20) (1/100)).1.timeline
        (calculatePortfolioReturns adMid [] weightsEq2 "threshold" (1/20) (1/100)).1.rebalDates).turnover
      = if ((calculatePortfolioReturns adMid [] weightsEq2 "threshold" (1/20) (1/100)).1.rebalDates).length = 0
        then 0
        else (((calculatePortfolioReturns adMid [] weightsEq2 "threshold" (1/20) (1/100)).1.preDriftLog).map
            (fun pre => (List.zipWith (fun a b => |a - b|)
              ((adMid.map (·.1)).map (fun t => (assocFind weightsEq2 t).getD 0)) pre).sum)).sum
          / (((calculatePortfolioReturns adMid [] weightsEq2 "threshold" (1/20) (1/100)).1.rebalDates).length : ℚ) :=
  ⟨by decide, by decide,
    reported_turnover_uses_predrift adMid [] weightsEq2 "threshold" (1/20) (1/100)
      (by decide) (by decide)⟩

end Portfolio
